import Mathlib

/-!
Verification development for the `yatube` blogging application
(`posts/models.py`, `posts/forms.py`, `posts/utils.py` and the view layer
described by the specification and exercised by the test suite).

The embedding is shallow: Django model tables become lists of records in a
`DB` state, the pagination helper (`posts/utils.py`, which delegates to
the Django `Paginator.get_page`) becomes a pure function on lists, and the
view handlers become state-passing functions.  The repository sources do not
include `posts/views.py` itself; every definition whose doc comment starts
with `Modelled from the spec:` reconstructs a view handler from the
description of it in the specification (and from the URLs and assertions of the
test suite), while everything else is translated directly from the sources.
-/

namespace Yatube

/-! Section: Pagination (`posts/utils.py` + `django.core.paginator.Paginator`)

`pagination(request, post_list)` builds `Paginator(post_list, POSTS_PER_PAGE)`
and returns `paginator.get_page` on the page query parameter.  `get_page` parses
the page parameter with Python `int()`; a missing or non-integer value is
treated as page 1 (`PageNotAnInteger`), an out-of-range integer as the last
page (`EmptyPage`).  Defaults: `orphans = 0`, `allow_empty_first_page = True`.
-/

/-- The raw `page` query parameter: the page entry of the request query is either
absent (`None` in Python) or a string. -/
inductive PageQuery where
  | missing : PageQuery
  | param (s : String) : PageQuery

/-- Value of a nonempty all-digit character list, `none` otherwise
(the digit-run part of Python `int()` on a string). -/
def digitsVal : List Char → Option Nat
  | [] => none
  | cs =>
    cs.foldl
      (fun acc c =>
        match acc with
        | none => none
        | some n => if c.isDigit then some (n * 10 + (c.toNat - 48)) else none)
      (some 0)

/-- Drop leading whitespace characters. -/
def dropWs : List Char → List Char
  | [] => []
  | c :: cs => if c.isWhitespace then dropWs cs else c :: cs

/-- Python `int(s)` for a string argument: optional surrounding whitespace,
optional sign, then a nonempty run of decimal digits; anything else raises
`ValueError`, modelled as `none`. -/
def pyStrToInt (s : String) : Option Int :=
  match dropWs (dropWs s.data.reverse).reverse with
  | [] => none
  | c :: rest =>
    if c = '-' then (digitsVal rest).map (fun n => -(n : Int))
    else if c = '+' then (digitsVal rest).map (fun n => (n : Int))
    else (digitsVal (c :: rest)).map (fun n => (n : Int))

/-- Model of `Paginator.num_pages` with `orphans = 0` and
`allow_empty_first_page = True`: `ceil(max(1, count) / per_page)`. -/
def numPages (count perPage : Nat) : Nat :=
  (max 1 count + perPage - 1) / perPage

/-- Resolution of the requested page number by `Paginator.get_page` via
`validate_number`: a missing or unparsable value yields page 1, an integer
below 1 or above `num_pages` yields the last page (`num_pages`), except for
the vacuous `number == 1` escape of `allow_empty_first_page`. -/
def getPageNumber (q : PageQuery) (np : Nat) : Nat :=
  match q with
  | .missing => 1
  | .param s =>
    match pyStrToInt s with
    | none => 1
    | some n =>
      if n < 1 then np
      else if (np : Int) < n then (if n = 1 then 1 else np)
      else n.toNat

/-- Model of `Page.object_list` for a validated page `number`:
`bottom = (number - 1) * per_page`, `top = bottom + per_page` clamped to the
item count, slice `object_list[bottom:top]`. -/
def pageSlice (l : List α) (perPage number : Nat) : List α :=
  let bottom := (number - 1) * perPage
  let top := min (bottom + perPage) l.length
  (l.drop bottom).take (top - bottom)

/-- The function `pagination(request, post_list)` from `posts/utils.py`, parametrised by
the deployment constant `POSTS_PER_PAGE`. -/
def pagination (perPage : Nat) (l : List α) (q : PageQuery) : List α :=
  pageSlice l perPage (getPageNumber q (numPages l.length perPage))

/-! Section: Data model (`posts/models.py`)

Users are identified by numeric ids (the auth subsystem is external).  Each
Django model becomes a record; the model tables live in a `DB` record.
Timestamps (`auto_now_add`) are abstract clock ticks supplied by the caller.
-/

/-- Model `Group`: title, unique slug, description. -/
structure Group where
  id : Nat
  title : String
  slug : String
  description : String
deriving DecidableEq, Repr

/-- Model `Post`: text, `pub_date` (`auto_now_add`), required `author`
(`on_delete=CASCADE`), optional `group` (`null=True`, `on_delete=SET_NULL`),
optional `image`. -/
structure Post where
  id : Nat
  text : String
  pub_date : Nat
  author : Nat
  group : Option Nat
  image : String
deriving DecidableEq, Repr

/-- Model `Comment`: nullable parent `post` (`on_delete=CASCADE`), required
`author` (`on_delete=CASCADE`), text, `created` (`auto_now_add`). -/
structure Comment where
  id : Nat
  post : Option Nat
  author : Nat
  text : String
  created : Nat
deriving DecidableEq, Repr

/-- Model `Follow`: follower `user` and followed `author`, both
`on_delete=CASCADE`, with a `UniqueConstraint` on `(user, author)`. -/
structure Follow where
  user : Nat
  author : Nat
deriving DecidableEq, Repr

/-- The relational store: one list per model table, plus a fresh-id
counter for new rows. -/
structure DB where
  users : List Nat
  groups : List Group
  posts : List Post
  comments : List Comment
  follows : List Follow
  nextId : Nat
deriving DecidableEq, Repr

def emptyDB : DB :=
  { users := [], groups := [], posts := [], comments := [], follows := [],
    nextId := 0 }

def createUser (db : DB) (u : Nat) : DB := { db with users := u :: db.users }

def createGroup (db : DB) (g : Group) : DB :=
  { db with groups := g :: db.groups }

/-- Deleting a `Group`: every post referencing it has its `group` cleared
(`on_delete=SET_NULL` in `posts/models.py`); no post is deleted. -/
def deleteGroup (db : DB) (g : Nat) : DB :=
  { db with
    groups := db.groups.filter (fun x => !(x.id == g))
    posts := db.posts.map
      (fun p => if p.group == some g then { p with group := none } else p) }

/-- Does comment `c` hang off a post authored by `u` (and hence get swept by
the `Post → Comment` cascade when `u` is deleted)? -/
def commentOnPostOf (db : DB) (u : Nat) (c : Comment) : Bool :=
  match c.post with
  | none => false
  | some pid => db.posts.any (fun p => p.id == pid && p.author == u)

/-- Deleting a user: the posts, comments and follow edges of that user are removed
(`on_delete=CASCADE` in `posts/models.py`), and comments on the deleted
posts cascade away as well. -/
def deleteUser (db : DB) (u : Nat) : DB :=
  { db with
    users := db.users.filter (fun x => !(x == u))
    posts := db.posts.filter (fun p => !(p.author == u))
    comments := db.comments.filter
      (fun c => !(c.author == u) && !(commentOnPostOf db u c))
    follows := db.follows.filter (fun f => !(f.user == u) && !(f.author == u)) }

/-! Section: Forms (`posts/forms.py`) -/

/-- The editable field set of `PostForm`:
`fields = (text, group, image)`. -/
structure PostFormData where
  text : String
  group : Option Nat
  image : String
deriving DecidableEq, Repr

/-- Saving a bound `PostForm` over an existing instance writes exactly the
declared fields `text`, `group`, `image`; every other column keeps its
value. -/
def applyPostForm (p : Post) (d : PostFormData) : Post :=
  { p with text := d.text, group := d.group, image := d.image }

/-- Validation `PostForm.is_valid()`: `text` is a required field, `group` is optional
but must resolve to an existing group, `image` is optional. -/
def postFormValid (db : DB) (d : PostFormData) : Bool :=
  !(d.text == "") &&
    (match d.group with
     | none => true
     | some g => db.groups.any (fun x => x.id == g))

/-! Section: Requests and responses -/

/-- The acting identity supplied by the (external) auth subsystem. -/
inductive Identity where
  | anonymous : Identity
  | user (id : Nat) : Identity
deriving DecidableEq, Repr

/-- Request paths of the write endpoints, as exercised by the test suite. -/
inductive Path where
  | create : Path
  | postComment (post_id : Nat) : Path
  | postEdit (post_id : Nat) : Path
  | profileFollow (username : Nat) : Path
  | profileUnfollow (username : Nat) : Path
deriving DecidableEq, Repr

/-- The literal URL of a write endpoint (usernames are rendered as the
numeric user ids of the embedding). -/
def pathString : Path → String
  | .create => "/create/"
  | .postComment pid => "/posts/" ++ toString pid ++ "/comment/"
  | .postEdit pid => "/posts/" ++ toString pid ++ "/edit/"
  | .profileFollow u => "/profile/" ++ toString u ++ "/follow/"
  | .profileUnfollow u => "/profile/" ++ toString u ++ "/unfollow/"

/-- Responses of the write-path handlers.  A login redirect carries the
originally requested path as its return parameter. -/
inductive Response where
  | redirectLogin (next : Path) : Response
  | redirectProfile (username : Nat) : Response
  | redirectPostDetail (post_id : Nat) : Response
  | formInvalid : Response
  | notFound : Response
deriving DecidableEq, Repr

/-- The URL a login redirect resolves to: the login flow with the original
path as the `next` return parameter (as asserted literally by the tests,
e.g. `/auth/login/?next=/create/`). -/
def loginURL (p : Path) : String := "/auth/login/?next=" ++ pathString p

/-! Section: Write-path views

`posts/views.py` is not part of the sources; the handlers below are
modelled from the specification (§4.3, §4.4) and the test suite.
-/

/-- The row persisted by a successful post creation: the acting identity
becomes the author, `pub_date` is the creation instant. -/
def newPost (db : DB) (u : Nat) (d : PostFormData) (now : Nat) : Post :=
  { id := db.nextId, text := d.text, pub_date := now, author := u,
    group := d.group, image := d.image }

/-- Modelled from the spec: the view `post_create` (`posts/views.py` is not
in the sources).  Anonymous identities are redirected to login carrying the
requested path; a valid form persists a post authored by the acting identity
and redirects to the profile of that author; an invalid form redisplays with
errors and persists nothing. -/
def post_create (db : DB) (who : Identity) (d : PostFormData) (now : Nat) :
    DB × Response :=
  match who with
  | .anonymous => (db, .redirectLogin .create)
  | .user u =>
    if postFormValid db d then
      ({ db with posts := newPost db u d now :: db.posts,
                 nextId := db.nextId + 1 },
       .redirectProfile u)
    else (db, .formInvalid)

/-- Lookup by primary key, as in `Post.objects.filter(pk=post_id).first()`. -/
def findPost (db : DB) (pid : Nat) : Option Post :=
  db.posts.find? (fun p => p.id == pid)

/-- Modelled from the spec: the view `post_edit` (`posts/views.py` is not in
the sources).  Anonymous identities are redirected to login; an
authenticated non-author is silently redirected to the detail view of the post
with no mutation; a valid edit by the author rewrites exactly the `PostForm`
fields of that post. -/
def post_edit (db : DB) (who : Identity) (pid : Nat) (d : PostFormData) :
    DB × Response :=
  match who with
  | .anonymous => (db, .redirectLogin (.postEdit pid))
  | .user u =>
    match findPost db pid with
    | none => (db, .notFound)
    | some p =>
      if u == p.author then
        if postFormValid db d then
          let posts :=
            db.posts.map fun q => if q.id == pid then applyPostForm q d else q
          ({ db with posts := posts }, .redirectPostDetail pid)
        else (db, .formInvalid)
      else (db, .redirectPostDetail pid)

/-- Modelled from the spec: the view `add_comment` (`posts/views.py` is not
in the sources).  Anonymous identities are redirected to login carrying the
requested path, creating nothing; empty text is rejected; otherwise a
comment by the acting identity is attached to the post. -/
def add_comment (db : DB) (who : Identity) (pid : Nat) (text : String)
    (now : Nat) : DB × Response :=
  match who with
  | .anonymous => (db, .redirectLogin (.postComment pid))
  | .user u =>
    match findPost db pid with
    | none => (db, .notFound)
    | some _ =>
      if text == "" then (db, .formInvalid)
      else
        let c : Comment :=
          { id := db.nextId, post := some pid, author := u, text := text,
            created := now }
        ({ db with comments := c :: db.comments, nextId := db.nextId + 1 },
         .redirectPostDetail pid)

/-- The check `Follow.objects.filter(user=u, author=a).exists()`. -/
def followExists (db : DB) (u a : Nat) : Bool :=
  db.follows.any (fun f => f.user == u && f.author == a)

/-- Modelled from the spec: the view `profile_follow` (`posts/views.py` is
not in the sources).  Requires authentication; resolves the target author
(404 when unknown); creates the edge unless it already exists — a duplicate
attempt is a no-op, never an error; redirects to the profile page. -/
def profile_follow (db : DB) (who : Identity) (a : Nat) : DB × Response :=
  match who with
  | .anonymous => (db, .redirectLogin (.profileFollow a))
  | .user u =>
    if db.users.any (fun x => x == a) then
      if followExists db u a then (db, .redirectProfile a)
      else ({ db with follows := { user := u, author := a } :: db.follows },
            .redirectProfile a)
    else (db, .notFound)

/-- Modelled from the spec: the view `profile_unfollow` (`posts/views.py` is
not in the sources).  Requires authentication; deletes the edge if present;
a missing edge is a silent no-op. -/
def profile_unfollow (db : DB) (who : Identity) (a : Nat) : DB × Response :=
  match who with
  | .anonymous => (db, .redirectLogin (.profileUnfollow a))
  | .user u =>
    if db.users.any (fun x => x == a) then
      ({ db with follows :=
          db.follows.filter (fun f => !(f.user == u && f.author == a)) },
       .redirectProfile a)
    else (db, .notFound)

/-- The count `Follow.objects.count()`. -/
def followCount (db : DB) : Nat := db.follows.length

/-- The count `Follow.objects.filter(user=u, author=a).count()`. -/
def edgeCount (db : DB) (u a : Nat) : Nat :=
  (db.follows.filter (fun f => f.user == u && f.author == a)).length

/-- The uniqueness invariant of the schema on `(user, author)`. -/
def UniqueFollows (db : DB) : Prop := ∀ u a, edgeCount db u a ≤ 1

/-- States reachable from the empty store through the write
operations of the application. -/
inductive Reachable : DB → Prop where
  | init : Reachable emptyDB
  | userAdded (db : DB) (u : Nat) : Reachable db → Reachable (createUser db u)
  | groupAdded (db : DB) (g : Group) : Reachable db →
      Reachable (createGroup db g)
  | postCreated (db : DB) (who : Identity) (d : PostFormData) (now : Nat) :
      Reachable db → Reachable (post_create db who d now).1
  | postEdited (db : DB) (who : Identity) (pid : Nat) (d : PostFormData) :
      Reachable db → Reachable (post_edit db who pid d).1
  | commentAdded (db : DB) (who : Identity) (pid : Nat) (t : String)
      (now : Nat) : Reachable db → Reachable (add_comment db who pid t now).1
  | followed (db : DB) (who : Identity) (a : Nat) : Reachable db →
      Reachable (profile_follow db who a).1
  | unfollowed (db : DB) (who : Identity) (a : Nat) : Reachable db →
      Reachable (profile_unfollow db who a).1
  | groupDeleted (db : DB) (g : Nat) : Reachable db →
      Reachable (deleteGroup db g)
  | userDeleted (db : DB) (u : Nat) : Reachable db →
      Reachable (deleteUser db u)

/-! Section: Feed composer (read views)

`Post.Meta.ordering` (descending `pub_date`, from `posts/models.py`) orders every
listing by publication date descending; the filters are those of the
feed composer of the specification (§4.2), since `posts/views.py` is not in the
sources.
-/

/-- Listing order: `pub_date` descending, per `Meta.ordering` of `Post`. -/
def orderPosts (l : List Post) : List Post :=
  l.insertionSort (fun a b => b.pub_date ≤ a.pub_date)

/-- Modelled from the spec: the global feed — all posts, newest first. -/
def index_posts (db : DB) : List Post := orderPosts db.posts

/-- Modelled from the spec: the group feed — the posts whose `group` is the
requested group, newest first. -/
def group_feed (db : DB) (g : Nat) : List Post :=
  orderPosts (db.posts.filter (fun p => p.group == some g))

/-- Modelled from the spec: the author feed — the posts whose `author` is
the requested user, newest first. -/
def profile_feed (db : DB) (u : Nat) : List Post :=
  orderPosts (db.posts.filter (fun p => p.author == u))

/-- Modelled from the spec: the followed-authors feed of a viewer. -/
def follow_feed (db : DB) (viewer : Nat) : List Post :=
  orderPosts (db.posts.filter (fun p => followExists db viewer p.author))

/-! Section: Page cache (§4.5)

The global feed is served through a whole-response cache that only an
explicit clear (or TTL expiry) invalidates; post creation does not touch it.
The cached response is modelled as the rendered sequence of posts.
-/

/-- Modelled from the spec: application state — the store plus the
whole-response cache of the rendered global feed. -/
structure AppState where
  db : DB
  cache : Option (List Post)
deriving DecidableEq, Repr

/-- Modelled from the spec: a global-feed read.  A warm cache is served
verbatim; a cold cache renders from the store and is populated. -/
def read_index (s : AppState) : AppState × List Post :=
  match s.cache with
  | some r => (s, r)
  | none => ({ s with cache := some (index_posts s.db) }, index_posts s.db)

/-- Modelled from the spec: the explicit `cache.clear()`. -/
def cache_clear (s : AppState) : AppState := { s with cache := none }

/-- Modelled from the spec: post creation through the running application;
the write path has no cache-invalidation hook, so the cache is untouched. -/
def create_post_app (s : AppState) (u : Nat) (d : PostFormData) (now : Nat) :
    AppState :=
  { s with db := (post_create s.db (.user u) d now).1 }

/-! Section: Sample data for concrete instantiations -/

/-- A sample post: id 0, by user 1, in group 7. -/
def samplePost : Post :=
  { id := 0, text := "t", pub_date := 5, author := 1, group := some 7,
    image := "" }

/-- A small concrete store: users 1 and 2, one group (id 7), one post
(`samplePost`) by user 1 in group 7. -/
def sampleDB : DB :=
  { users := [1, 2]
    groups := [{ id := 7, title := "g", slug := "g", description := "" }]
    posts := [samplePost]
    comments := []
    follows := []
    nextId := 1 }

/-- Sample form data: nonempty text, no group, no image. -/
def sampleForm : PostFormData := { text := "x", group := none, image := "" }

/-! Section: Pagination lemmas -/

/-- Arithmetic facts about the last page: its number is `⌈N/P⌉`, its bottom
offset lies strictly below `N`, its top offset reaches `N`, and its width is
`N mod P` (or `P` when `P` divides `N`). -/
theorem lastPage_arith (N P : Nat) (hP : 1 ≤ P) (hN : 1 ≤ N) :
    1 ≤ (N + P - 1) / P
    ∧ ((N + P - 1) / P - 1) * P < N
    ∧ N ≤ ((N + P - 1) / P - 1) * P + P
    ∧ N - ((N + P - 1) / P - 1) * P = (if N % P = 0 then P else N % P) := by
  obtain ⟨q, r, hr, rfl⟩ : ∃ q r, r < P ∧ P * q + r = N :=
    ⟨N / P, N % P, Nat.mod_lt _ hP, Nat.div_add_mod N P⟩
  have hsplit : P * q + r + P - 1 = P * q + (r + P - 1) := by
    rw [Nat.add_assoc, Nat.add_sub_assoc (by omega : 1 ≤ r + P)]
  have key : (P * q + r + P - 1) / P = q + (r + P - 1) / P := by
    rw [hsplit, Nat.mul_add_div (by omega)]
  rcases Nat.eq_zero_or_pos r with hr0 | hr1
  · subst hr0
    have hq : 1 ≤ q := by
      cases q with
      | zero => simp at hN
      | succ n => omega
    have hnp : (P * q + 0 + P - 1) / P = q := by
      rw [key, Nat.div_eq_of_lt (by omega), Nat.add_zero]
    have hmod : (P * q + 0) % P = 0 := by
      rw [Nat.add_zero, Nat.mul_mod_right]
    rw [hnp, hmod, if_pos rfl, Nat.sub_one_mul]
    have hPA : P ≤ P * q := Nat.le_mul_of_pos_right P hq
    have hc : q * P = P * q := Nat.mul_comm q P
    refine ⟨hq, by omega, by omega, by omega⟩
  · have h2 : (r + P - 1) / P = 1 := Nat.div_eq_of_lt_le (by omega) (by omega)
    have hnp : (P * q + r + P - 1) / P = q + 1 := by rw [key, h2]
    have hmod : (P * q + r) % P = r := by
      rw [Nat.mul_add_mod, Nat.mod_eq_of_lt hr]
    rw [hnp, hmod, if_neg (by omega), Nat.add_sub_cancel]
    have hc : q * P = P * q := Nat.mul_comm q P
    exact ⟨by omega, by omega, by omega, by omega⟩

theorem numPages_of_pos (N P : Nat) (hN : 1 ≤ N) :
    numPages N P = (N + P - 1) / P := by
  unfold numPages
  rw [Nat.max_eq_right hN]

theorem one_le_numPages (N P : Nat) (hP : 1 ≤ P) : 1 ≤ numPages N P := by
  unfold numPages
  rw [Nat.one_le_div_iff (by omega)]
  omega

theorem length_pageSlice (l : List α) (P n : Nat)
    (h1 : (n - 1) * P < l.length) (h2 : l.length ≤ (n - 1) * P + P) :
    (pageSlice l P n).length = l.length - (n - 1) * P := by
  unfold pageSlice
  simp only [List.length_take, List.length_drop]
  omega

theorem getPageNumber_of_parsed (s : String) (np : Nat) (n : Int)
    (hs : pyStrToInt s = some n) (h1 : 1 ≤ n) (h2 : n ≤ (np : Int)) :
    getPageNumber (PageQuery.param s) np = n.toNat := by
  simp only [getPageNumber, hs]
  rw [if_neg (by omega), if_neg (by omega)]

theorem getPageNumber_invalid (s : String) (np : Nat)
    (hs : pyStrToInt s = none) :
    getPageNumber (PageQuery.param s) np = 1 := by
  simp only [getPageNumber, hs]

theorem getPageNumber_underflow (s : String) (np : Nat) (n : Int)
    (hs : pyStrToInt s = some n) (hlt : n < 1) :
    getPageNumber (PageQuery.param s) np = np := by
  simp only [getPageNumber, hs, if_pos hlt]

theorem getPageNumber_overflow (s : String) (np : Nat) (n : Int)
    (hs : pyStrToInt s = some n) (hnp : 1 ≤ np) (hgt : (np : Int) < n) :
    getPageNumber (PageQuery.param s) np = np := by
  simp only [getPageNumber, hs]
  rw [if_neg (by omega), if_pos hgt, if_neg (by omega)]

theorem getPageNumber_bounds (q : PageQuery) (np : Nat) (hnp : 1 ≤ np) :
    1 ≤ getPageNumber q np ∧ getPageNumber q np ≤ np := by
  cases q with
  | missing => exact ⟨le_refl 1, hnp⟩
  | param s =>
    simp only [getPageNumber]
    cases hp : pyStrToInt s with
    | none => exact ⟨le_refl 1, hnp⟩
    | some n =>
      dsimp only
      by_cases hlt : n < 1
      · rw [if_pos hlt]
        exact ⟨hnp, le_refl np⟩
      · rw [if_neg hlt]
        by_cases hgt : (np : Int) < n
        · rw [if_pos hgt]
          by_cases h1 : n = 1
          · rw [if_pos h1]
            exact ⟨le_refl 1, hnp⟩
          · rw [if_neg h1]
            exact ⟨hnp, le_refl np⟩
        · rw [if_neg hgt]
          constructor <;> omega

/-! Section: Claim theorems: pagination -/

/-- C2, counterexample: the claim quantifies over *every* post count `N`,
but at `N = 0`, `P = 2` the requested page is `⌈0/2⌉ = 0` (parsed from the
query string `0`), `N mod P = 0`, and the helper returns `0` posts, not the
`P = 2` posts the claim demands. -/
theorem pagination_last_page_count_cex :
    pyStrToInt ("0") = some ((((0 : Nat) + 2 - 1) / 2 : Nat) : Int)
    ∧ (pagination 2 ([] : List Nat) (PageQuery.param ("0"))).length = 0
    ∧ ¬ ((pagination 2 ([] : List Nat) (PageQuery.param ("0"))).length =
          if (0 : Nat) % 2 = 0 then 2 else (0 : Nat) % 2) := by
  decide

/-- C2 (amended to positive post counts): for every valid page size `P ≥ 1`
and every post count `N ≥ 1`, requesting page `⌈N/P⌉` returns exactly
`N mod P` posts, or `P` posts when `N mod P = 0`. -/
theorem pagination_last_page_count (P : Nat) (l : List α) (s : String)
    (hP : 1 ≤ P) (hN : 1 ≤ l.length)
    (hs : pyStrToInt s = some (((l.length + P - 1) / P : Nat) : Int)) :
    (pagination P l (PageQuery.param s)).length =
      if l.length % P = 0 then P else l.length % P := by
  obtain ⟨h1, h2, h3, h4⟩ := lastPage_arith l.length P hP hN
  have hnum : numPages l.length P = (l.length + P - 1) / P :=
    numPages_of_pos _ _ hN
  have hget : getPageNumber (PageQuery.param s) (numPages l.length P)
      = (l.length + P - 1) / P := by
    rw [hnum, getPageNumber_of_parsed s _ _ hs (by exact_mod_cast h1)
      (le_refl _)]
    exact Int.toNat_natCast _
  unfold pagination
  rw [hget, length_pageSlice l P _ h2 h3, h4]

/-- C2 witness: `P = 2`, three posts, page `⌈3/2⌉ = 2` holds `3 mod 2 = 1`
post. -/
theorem pagination_last_page_count_witness :
    (pagination 2 [10, 20, 30] (PageQuery.param ("2"))).length =
      if (3 : Nat) % 2 = 0 then 2 else (3 : Nat) % 2 :=
  pagination_last_page_count 2 [10, 20, 30] ("2") (by decide) (by decide)
    (by decide)

/-- C3, counterexample: the claim promises the *nearest* valid page for any
out-of-range request.  With items `[1, 2, 3]` and page size `2` the valid
pages are `1 ↦ [1, 2]` and `2 ↦ [3]`; for the request `0` the nearest valid
page is page 1, yet the helper returns the content `[3]` of page 2. -/
theorem pagination_nearest_page_cex :
    pagination 2 [1, 2, 3] (PageQuery.param ("0")) = [3]
    ∧ pageSlice [1, 2, 3] 2 1 = [1, 2]
    ∧ numPages 3 2 = 2
    ∧ pageSlice [1, 2, 3] 2 2 = [3]
    ∧ ([3] : List Nat) ≠ [1, 2] := by
  decide

/-- C3 (amended): the helper never errors — every request resolves to a
valid page number between 1 and the page count; a missing page value
resolves to the first page, a non-integer page value resolves to the first
page, any parsed integer below 1 resolves to the last page, and a parsed
page number beyond the last resolves to the last page — so in particular a
request past the end returns exactly the content of the last page. -/
theorem pagination_never_errors_clamps (P : Nat) (l : List α) (q : PageQuery)
    (hP : 1 ≤ P) :
    (1 ≤ getPageNumber q (numPages l.length P)
      ∧ getPageNumber q (numPages l.length P) ≤ numPages l.length P
      ∧ pagination P l q =
          pageSlice l P (getPageNumber q (numPages l.length P)))
    ∧ (q = PageQuery.missing → pagination P l q = pageSlice l P 1)
    ∧ (∀ s, q = PageQuery.param s → pyStrToInt s = none →
        pagination P l q = pageSlice l P 1)
    ∧ (∀ s n, q = PageQuery.param s → pyStrToInt s = some n → n < 1 →
        pagination P l q = pageSlice l P (numPages l.length P))
    ∧ (∀ s n, q = PageQuery.param s → pyStrToInt s = some n →
        (numPages l.length P : Int) < n →
        pagination P l q = pageSlice l P (numPages l.length P)) := by
  have hnp : 1 ≤ numPages l.length P := one_le_numPages l.length P hP
  obtain ⟨hb1, hb2⟩ := getPageNumber_bounds q (numPages l.length P) hnp
  refine ⟨⟨hb1, hb2, rfl⟩, ?_, ?_, ?_, ?_⟩
  · intro hq
    subst hq
    rfl
  · intro s hq hs
    subst hq
    unfold pagination
    rw [getPageNumber_invalid s _ hs]
  · intro s n hq hs hlt
    subst hq
    unfold pagination
    rw [getPageNumber_underflow s _ n hs hlt]
  · intro s n hq hs hgt
    subst hq
    unfold pagination
    rw [getPageNumber_overflow s _ n hs hnp hgt]

/-- C3 witness: on the two pages of `[1, 2, 3]` (size 2), a missing page
value gives page 1, the non-integer `zz` gives page 1, the below-range
`-1` gives the last page, and the past-the-end `5` gives the content of
the last page. -/
theorem pagination_never_errors_clamps_witness :
    (pagination 2 [1, 2, 3] PageQuery.missing = pageSlice [1, 2, 3] 2 1)
    ∧ (pagination 2 [1, 2, 3] (PageQuery.param ("zz")) =
        pageSlice [1, 2, 3] 2 1)
    ∧ (pagination 2 [1, 2, 3] (PageQuery.param ("-1")) =
        pageSlice [1, 2, 3] 2 (numPages 3 2))
    ∧ (pagination 2 [1, 2, 3] (PageQuery.param ("5")) =
        pageSlice [1, 2, 3] 2 (numPages 3 2)) :=
  ⟨(pagination_never_errors_clamps 2 [1, 2, 3] PageQuery.missing
      (by decide)).2.1 rfl,
   (pagination_never_errors_clamps 2 [1, 2, 3] (PageQuery.param ("zz"))
      (by decide)).2.2.1 ("zz") rfl (by decide),
   (pagination_never_errors_clamps 2 [1, 2, 3] (PageQuery.param ("-1"))
      (by decide)).2.2.2.1 ("-1") (-1) rfl (by decide) (by decide),
   (pagination_never_errors_clamps 2 [1, 2, 3] (PageQuery.param ("5"))
      (by decide)).2.2.2.2 ("5") 5 rfl (by decide) (by decide)⟩

/-- C10: invalid page input is resolved asymmetrically — a missing or
non-integer page value yields the first page, while any parsed integer
outside `[1, num_pages]` yields the last page; in particular, on a list
spanning more than one page, the request `0` resolves to the last page,
which is not the first. -/
theorem pagination_invalid_page_asymmetry (P : Nat) (l : List α)
    (hP : 1 ≤ P) :
    (pagination P l PageQuery.missing = pageSlice l P 1)
    ∧ (∀ s, pyStrToInt s = none →
        pagination P l (PageQuery.param s) = pageSlice l P 1)
    ∧ (∀ s n, pyStrToInt s = some n →
        (n < 1 ∨ (numPages l.length P : Int) < n) →
        pagination P l (PageQuery.param s) =
          pageSlice l P (numPages l.length P))
    ∧ (P < l.length →
        getPageNumber (PageQuery.param ("0")) (numPages l.length P) =
            numPages l.length P
          ∧ 1 < numPages l.length P) := by
  have hnp : 1 ≤ numPages l.length P := one_le_numPages l.length P hP
  refine ⟨rfl, ?_, ?_, ?_⟩
  · intro s hs
    unfold pagination
    rw [getPageNumber_invalid s _ hs]
  · intro s n hs hout
    unfold pagination
    rcases hout with hlt | hgt
    · rw [getPageNumber_underflow s _ n hs hlt]
    · rw [getPageNumber_overflow s _ n hs hnp hgt]
  · intro hPl
    have hzero : pyStrToInt ("0") = some 0 := by decide
    have h2 : 2 ≤ numPages l.length P := by
      unfold numPages
      rw [Nat.le_div_iff_mul_le (by omega)]
      omega
    exact ⟨getPageNumber_underflow ("0") _ 0 hzero (by omega), by omega⟩

/-- C10 witness: on `[1, 2, 3]` with page size 2 a missing page parameter
gives page 1, the non-numeric `abc` gives page 1, and the out-of-range `0`
gives the last page (page 2), which is not page 1. -/
theorem pagination_invalid_page_asymmetry_witness :
    (pagination 2 [1, 2, 3] PageQuery.missing = pageSlice [1, 2, 3] 2 1)
    ∧ (pagination 2 [1, 2, 3] (PageQuery.param ("abc")) = pageSlice [1, 2, 3] 2 1)
    ∧ (pagination 2 [1, 2, 3] (PageQuery.param ("0")) =
        pageSlice [1, 2, 3] 2 (numPages 3 2))
    ∧ (getPageNumber (PageQuery.param ("0")) (numPages 3 2) = numPages 3 2
        ∧ 1 < numPages 3 2) :=
  ⟨(pagination_invalid_page_asymmetry 2 [1, 2, 3] (by decide)).1,
   (pagination_invalid_page_asymmetry 2 [1, 2, 3] (by decide)).2.1 ("abc")
     (by decide),
   (pagination_invalid_page_asymmetry 2 [1, 2, 3] (by decide)).2.2.1 ("0") 0
     (by decide) (by decide),
   (pagination_invalid_page_asymmetry 2 [1, 2, 3] (by decide)).2.2.2
     (by decide)⟩

/-! Section: Claim theorems: deletion rules (schema) -/

/-- C5: deleting a group clears `group` on every post that referenced it,
keeps every other post as is, deletes none of them, and afterwards no post
references the group; deleting a user deletes exactly the posts of that user. -/
theorem delete_rules (db : DB) (g u : Nat) :
    ((deleteGroup db g).posts.length = db.posts.length
      ∧ (∀ p, p ∈ db.posts → p.group = some g →
          { p with group := none } ∈ (deleteGroup db g).posts)
      ∧ (∀ p, p ∈ db.posts → p.group ≠ some g →
          p ∈ (deleteGroup db g).posts)
      ∧ (∀ p, p ∈ (deleteGroup db g).posts → p.group ≠ some g))
    ∧ (∀ p, p ∈ (deleteUser db u).posts ↔ p ∈ db.posts ∧ p.author ≠ u) := by
  refine ⟨⟨?_, ?_, ?_, ?_⟩, ?_⟩
  · simp [deleteGroup]
  · intro p hp hg
    simp only [deleteGroup, List.mem_map]
    exact ⟨p, hp, by rw [if_pos (by simp [hg])]⟩
  · intro p hp hg
    simp only [deleteGroup, List.mem_map]
    exact ⟨p, hp, by rw [if_neg (by simp [hg])]⟩
  · intro p hp
    simp only [deleteGroup, List.mem_map] at hp
    obtain ⟨q, _, hq⟩ := hp
    by_cases h : q.group = some g
    · rw [if_pos (by simp [h])] at hq
      rw [← hq]
      simp
    · rw [if_neg (by simp [h])] at hq
      rw [← hq]
      exact h
  · intro p
    simp [deleteUser, List.mem_filter]

/-- C5 witness: deleting group 7 from the sample store keeps its single
post with `group` cleared; deleting user 1 removes that post. -/
theorem delete_rules_witness :
    { samplePost with group := none } ∈ (deleteGroup sampleDB 7).posts
    ∧ (samplePost ∈ (deleteUser sampleDB 2).posts
        ↔ samplePost ∈ sampleDB.posts ∧ samplePost.author ≠ 2) :=
  ⟨(delete_rules sampleDB 7 2).1.2.1 samplePost (by decide) (by decide),
   (delete_rules sampleDB 7 2).2 samplePost⟩

/-! Section: Claim theorems: the post-edit write path -/

theorem findPost_map_edit (l : List Post) (pid : Nat) (d : PostFormData) :
    (l.map fun q => if q.id == pid then applyPostForm q d else q).find?
        (fun p => p.id == pid) =
      (l.find? (fun p => p.id == pid)).map
        (fun q => if q.id == pid then applyPostForm q d else q) := by
  rw [List.find?_map]
  have hcomp : ((fun p : Post => p.id == pid) ∘
      fun q => if q.id == pid then applyPostForm q d else q) =
      fun q : Post => q.id == pid := by
    funext q
    by_cases h : (q.id == pid) = true
    · simp only [Function.comp]
      rw [if_pos h]
      rfl
    · simp only [Function.comp]
      rw [if_neg h]
  rw [hcomp]

theorem findPost_author (db : DB) (pid : Nat) (p : Post)
    (hp : findPost db pid = some p) : p ∈ db.posts ∧ p.id = pid := by
  unfold findPost at hp
  exact ⟨List.mem_of_find?_eq_some hp, by simpa using List.find?_some hp⟩

/-- C7: an edit performed by the author of the post rewrites at most the
`PostForm` fields (`text`, `group`, `image`) of that post — its `author`,
`pub_date` and `id` are unchanged — and leaves every other post in the
store untouched. -/
theorem post_edit_author_frame (db : DB) (u pid : Nat) (d : PostFormData)
    (p : Post) (hp : findPost db pid = some p) (ha : p.author = u) :
    ∃ p', findPost (post_edit db (.user u) pid d).1 pid = some p'
      ∧ p'.author = p.author ∧ p'.pub_date = p.pub_date ∧ p'.id = p.id
      ∧ (p' = p ∨ p' = applyPostForm p d)
      ∧ ∀ q, q ∈ db.posts → q.id ≠ pid →
          q ∈ (post_edit db (.user u) pid d).1.posts := by
  have hid : p.id = pid := (findPost_author db pid p hp).2
  simp only [post_edit, hp]
  rw [if_pos (by simp [ha])]
  by_cases hv : postFormValid db d = true
  · rw [if_pos hv]
    refine ⟨applyPostForm p d, ?_, rfl, rfl, rfl, Or.inr rfl, ?_⟩
    · dsimp only [findPost]
      rw [findPost_map_edit db.posts pid d]
      rw [show db.posts.find? (fun q => q.id == pid) = some p from hp]
      dsimp only [Option.map]
      rw [if_pos (by simp [hid])]
    · intro q hq hqid
      dsimp only
      have hfix :
          (fun r : Post => if r.id == pid then applyPostForm r d else r) q
            = q := if_neg (by simp [hqid])
      exact hfix ▸ List.mem_map_of_mem _ hq
  · rw [if_neg hv]
    exact ⟨p, hp, rfl, rfl, rfl, Or.inl rfl, fun q hq _ => hq⟩

/-- C7 witness: user 1 edits their post in the sample store. -/
theorem post_edit_author_frame_witness :
    ∃ p', findPost (post_edit sampleDB (.user 1) 0 sampleForm).1 0 = some p'
      ∧ p'.author = samplePost.author ∧ p'.pub_date = samplePost.pub_date
      ∧ p'.id = samplePost.id
      ∧ (p' = samplePost ∨ p' = applyPostForm samplePost sampleForm)
      ∧ ∀ q, q ∈ sampleDB.posts → q.id ≠ 0 →
          q ∈ (post_edit sampleDB (.user 1) 0 sampleForm).1.posts :=
  post_edit_author_frame sampleDB 1 0 sampleForm samplePost (by decide)
    (by decide)

/-- C9: an edit attempt by an authenticated non-author is answered with a
redirect to the detail view of the post and mutates nothing — the store is
returned unchanged, so every field of every post is intact. -/
theorem post_edit_non_author_no_mutation (db : DB) (u pid : Nat)
    (d : PostFormData) (p : Post) (hp : findPost db pid = some p)
    (hne : u ≠ p.author) :
    post_edit db (.user u) pid d = (db, .redirectPostDetail pid) := by
  simp only [post_edit, hp]
  rw [if_neg (by simp [hne])]

/-- C9 witness: user 2 tries to edit the post of user 1 in the sample store. -/
theorem post_edit_non_author_no_mutation_witness :
    post_edit sampleDB (.user 2) 0 sampleForm =
      (sampleDB, .redirectPostDetail 0) :=
  post_edit_non_author_no_mutation sampleDB 2 0 sampleForm samplePost
    (by decide) (by decide)

/-! Section: Claim theorems: anonymous writes -/

/-- C8: an unauthenticated attempt at either write operation (create post,
create comment) responds with a redirect to the login flow whose URL carries
the originally requested path as the return parameter, and persists nothing:
the store — in particular `Post.count()` and `Comment.count()` — is
unchanged. -/
theorem anonymous_write_redirects (db : DB) (d : PostFormData) (pid : Nat)
    (t : String) (now : Nat) :
    (post_create db .anonymous d now = (db, .redirectLogin .create)
      ∧ loginURL .create = "/auth/login/?next=/create/"
      ∧ (post_create db .anonymous d now).1.posts.length = db.posts.length)
    ∧ (add_comment db .anonymous pid t now =
          (db, .redirectLogin (.postComment pid))
      ∧ loginURL (.postComment pid) =
          "/auth/login/?next=/posts/" ++ toString pid ++ "/comment/"
      ∧ (add_comment db .anonymous pid t now).1.comments.length =
          db.comments.length) := by
  exact ⟨⟨rfl, rfl, rfl⟩, rfl, rfl, rfl⟩

/-! Section: Claim theorems: feed filtering -/

/-- C6: a post never appears in the feed of another author, nor in the feed of
any group other than its own. -/
theorem post_not_in_foreign_feeds (db : DB) (p : Post) (y g : Nat)
    (hy : p.author ≠ y) (hg : p.group ≠ some g) :
    p ∉ profile_feed db y ∧ p ∉ group_feed db g := by
  constructor
  · intro hmem
    unfold profile_feed orderPosts at hmem
    rw [(List.perm_insertionSort _ _).mem_iff, List.mem_filter] at hmem
    exact hy (by simpa using hmem.2)
  · intro hmem
    unfold group_feed orderPosts at hmem
    rw [(List.perm_insertionSort _ _).mem_iff, List.mem_filter] at hmem
    exact hg (by simpa using hmem.2)

/-- C6 witness: the sample post (author 1, group 7) appears neither in user
the feed of user 2 nor in the feed of group 8. -/
theorem post_not_in_foreign_feeds_witness :
    samplePost ∉ profile_feed sampleDB 2 ∧ samplePost ∉ group_feed sampleDB 8 :=
  post_not_in_foreign_feeds sampleDB samplePost 2 8 (by decide) (by decide)

/-! Section: Follow uniqueness: invariant machinery -/

theorem uniqueFollows_of_eq (db db' : DB) (h : db'.follows = db.follows)
    (hu : UniqueFollows db) : UniqueFollows db' := by
  intro u a
  unfold edgeCount
  rw [h]
  exact hu u a

theorem uniqueFollows_of_filter (db db' : DB) (pr : Follow → Bool)
    (h : db'.follows = db.follows.filter pr) (hu : UniqueFollows db) :
    UniqueFollows db' := by
  intro u a
  unfold edgeCount
  rw [h]
  have hs : List.Sublist
      ((db.follows.filter pr).filter (fun f => f.user == u && f.author == a))
      (db.follows.filter (fun f => f.user == u && f.author == a)) :=
    List.Sublist.filter _ (List.filter_sublist _)
  exact le_trans hs.length_le (hu u a)

theorem uniqueFollows_cons (db : DB) (u a : Nat) (hu : UniqueFollows db)
    (hnew : followExists db u a = false) :
    UniqueFollows
      { db with follows := { user := u, author := a } :: db.follows } := by
  intro u' a'
  unfold edgeCount
  dsimp only
  rw [List.filter_cons]
  by_cases h : (({ user := u, author := a } : Follow).user == u'
      && ({ user := u, author := a } : Follow).author == a') = true
  · rw [if_pos h]
    obtain ⟨rfl, rfl⟩ : u = u' ∧ a = a' := by simpa using h
    unfold followExists at hnew
    have hnil : db.follows.filter (fun f => f.user == u && f.author == a)
        = [] := by
      rw [List.filter_eq_nil_iff]
      exact List.any_eq_false.mp hnew
    rw [hnil]
    simp
  · rw [if_neg h]
    exact hu u' a'

theorem post_create_follows (db : DB) (who : Identity) (d : PostFormData)
    (now : Nat) : (post_create db who d now).1.follows = db.follows := by
  cases who with
  | anonymous => rfl
  | user u =>
    simp only [post_create]
    by_cases hv : postFormValid db d = true
    · rw [if_pos hv]
    · rw [if_neg hv]

theorem post_edit_follows (db : DB) (who : Identity) (pid : Nat)
    (d : PostFormData) : (post_edit db who pid d).1.follows = db.follows := by
  cases who with
  | anonymous => rfl
  | user u =>
    simp only [post_edit]
    cases hf : findPost db pid with
    | none => rfl
    | some p =>
      dsimp only
      by_cases hau : (u == p.author) = true
      · rw [if_pos hau]
        by_cases hv : postFormValid db d = true
        · rw [if_pos hv]
        · rw [if_neg hv]
      · rw [if_neg hau]

theorem add_comment_follows (db : DB) (who : Identity) (pid : Nat)
    (t : String) (now : Nat) :
    (add_comment db who pid t now).1.follows = db.follows := by
  cases who with
  | anonymous => rfl
  | user u =>
    simp only [add_comment]
    cases hf : findPost db pid with
    | none => rfl
    | some p =>
      dsimp only
      by_cases ht : (t == "") = true
      · rw [if_pos ht]
      · rw [if_neg ht]

theorem uniqueFollows_profile_follow (db : DB) (who : Identity) (a : Nat)
    (hu : UniqueFollows db) : UniqueFollows (profile_follow db who a).1 := by
  cases who with
  | anonymous => exact hu
  | user u =>
    simp only [profile_follow]
    by_cases hua : (db.users.any fun x => x == a) = true
    · rw [if_pos hua]
      by_cases he : followExists db u a = true
      · rw [if_pos he]
        exact hu
      · rw [if_neg he]
        have he' : followExists db u a = false := by
          cases hfe : followExists db u a
          · rfl
          · exact absurd hfe he
        exact uniqueFollows_cons db u a hu he'
    · rw [if_neg hua]
      exact hu

theorem uniqueFollows_profile_unfollow (db : DB) (who : Identity) (a : Nat)
    (hu : UniqueFollows db) : UniqueFollows (profile_unfollow db who a).1 := by
  cases who with
  | anonymous => exact hu
  | user u =>
    simp only [profile_unfollow]
    by_cases hua : (db.users.any fun x => x == a) = true
    · rw [if_pos hua]
      exact uniqueFollows_of_filter db _ _ rfl hu
    · rw [if_neg hua]
      exact hu

/-- The `(user, author)` uniqueness invariant of the schema holds in every
reachable state. -/
theorem reachable_uniqueFollows (db : DB) (h : Reachable db) :
    UniqueFollows db := by
  induction h with
  | init =>
    intro u a
    simp [edgeCount, emptyDB]
  | userAdded db u hr ih => exact uniqueFollows_of_eq db _ rfl ih
  | groupAdded db g hr ih => exact uniqueFollows_of_eq db _ rfl ih
  | postCreated db who d now hr ih =>
    exact uniqueFollows_of_eq db _ (post_create_follows db who d now) ih
  | postEdited db who pid d hr ih =>
    exact uniqueFollows_of_eq db _ (post_edit_follows db who pid d) ih
  | commentAdded db who pid t now hr ih =>
    exact uniqueFollows_of_eq db _ (add_comment_follows db who pid t now) ih
  | followed db who a hr ih => exact uniqueFollows_profile_follow db who a ih
  | unfollowed db who a hr ih =>
    exact uniqueFollows_profile_unfollow db who a ih
  | groupDeleted db g hr ih => exact uniqueFollows_of_eq db _ rfl ih
  | userDeleted db u hr ih => exact uniqueFollows_of_filter db _ _ rfl ih

theorem profile_follow_result (db : DB) (u a : Nat)
    (ha : (db.users.any fun x => x == a) = true) :
    (followExists db u a = true
      ∧ profile_follow db (.user u) a = (db, .redirectProfile a))
    ∨ (followExists db u a = false
      ∧ profile_follow db (.user u) a =
          ({ db with follows := { user := u, author := a } :: db.follows },
           .redirectProfile a)) := by
  by_cases he : followExists db u a = true
  · left
    refine ⟨he, ?_⟩
    simp only [profile_follow]
    rw [if_pos ha, if_pos he]
  · have he' : followExists db u a = false := by
      cases hfe : followExists db u a
      · rfl
      · exact absurd hfe he
    right
    refine ⟨he', ?_⟩
    simp only [profile_follow]
    rw [if_pos ha, if_neg he]

/-- C4: in every reachable state each `(follower, author)` pair has at most
one Follow edge; a first follow of an existing author raises
`Follow.count()` by exactly 1; repeating the call is a no-op (the state is
returned unchanged, the count rises by 0) and the edge stays unique. -/
theorem follow_unique_idempotent (db : DB) (u a : Nat) (hdb : Reachable db)
    (ha : (db.users.any fun x => x == a) = true) :
    (∀ u' a', edgeCount db u' a' ≤ 1)
    ∧ (followExists db u a = false →
        followCount (profile_follow db (.user u) a).1 = followCount db + 1)
    ∧ profile_follow (profile_follow db (.user u) a).1 (.user u) a =
        ((profile_follow db (.user u) a).1, .redirectProfile a)
    ∧ followCount
        (profile_follow (profile_follow db (.user u) a).1 (.user u) a).1 =
        followCount (profile_follow db (.user u) a).1
    ∧ (∀ u' a',
        edgeCount (profile_follow db (.user u) a).1 u' a' ≤ 1) := by
  have h1 := reachable_uniqueFollows db hdb
  have h5 := reachable_uniqueFollows _ (Reachable.followed db (.user u) a hdb)
  have hc3 : profile_follow (profile_follow db (.user u) a).1 (.user u) a =
      ((profile_follow db (.user u) a).1, .redirectProfile a) := by
    rcases profile_follow_result db u a ha with ⟨he, heq⟩ | ⟨he, heq⟩
    · rw [heq]
      simp only [profile_follow]
      rw [if_pos ha, if_pos he]
    · rw [heq]
      dsimp only
      simp only [profile_follow]
      rw [if_pos ha, if_pos (by simp [followExists])]
  refine ⟨h1, ?_, hc3, by rw [hc3], h5⟩
  intro hne
  rcases profile_follow_result db u a ha with ⟨he, _⟩ | ⟨_, heq⟩
  · rw [hne] at he
    exact absurd he (by simp)
  · rw [heq]
    rfl

/-- C4 witness: in the reachable two-user store, user 1 follows user 2 for
the first time and the count rises by one. -/
theorem follow_unique_idempotent_witness :
    followCount
        (profile_follow (createUser (createUser emptyDB 2) 1) (.user 1) 2).1 =
      followCount (createUser (createUser emptyDB 2) 1) + 1 :=
  (follow_unique_idempotent (createUser (createUser emptyDB 2) 1) 1 2
      (Reachable.userAdded _ _ (Reachable.userAdded _ _ Reachable.init))
      (by decide)).2.1 (by decide)

/-! Section: Claim theorems: the global-feed page cache -/

theorem read_index_spec (s : AppState) :
    (read_index s).1.cache = some (read_index s).2
    ∧ (read_index s).1.db = s.db := by
  unfold read_index
  cases hc : s.cache with
  | none => exact ⟨rfl, rfl⟩
  | some r => exact ⟨hc, rfl⟩

theorem read_index_warm (s : AppState) (r : List Post)
    (h : s.cache = some r) : read_index s = (s, r) := by
  unfold read_index
  rw [h]

theorem read_index_cold (s : AppState) (h : s.cache = none) :
    (read_index s).2 = index_posts s.db := by
  unfold read_index
  rw [h]

/-- C1: with a warm global-feed cache, creating a post does not change the
next global-feed read — it is byte-identical to the pre-creation response —
while after an explicit cache clear the read includes the new post (and so
differs from every pre-creation response that lacked it). -/
theorem cache_stale_until_clear (s0 : AppState) (u : Nat) (d : PostFormData)
    (now : Nat) (hd : postFormValid s0.db d = true) :
    ((read_index (create_post_app (read_index s0).1 u d now)).2 =
        (read_index s0).2)
    ∧ newPost s0.db u d now ∈
        (read_index (cache_clear (create_post_app (read_index s0).1 u d now))).2
    ∧ (newPost s0.db u d now ∉ (read_index s0).2 →
        (read_index
            (cache_clear (create_post_app (read_index s0).1 u d now))).2 ≠
          (read_index s0).2) := by
  obtain ⟨hc, hdb⟩ := read_index_spec s0
  have hwarm : (create_post_app (read_index s0).1 u d now).cache =
      some (read_index s0).2 := hc
  have hdb2 : (create_post_app (read_index s0).1 u d now).db =
      (post_create s0.db (.user u) d now).1 := by
    unfold create_post_app
    rw [hdb]
  have hr2 : (read_index (create_post_app (read_index s0).1 u d now)).2 =
      (read_index s0).2 := by
    rw [read_index_warm _ _ hwarm]
  have hposts : (post_create s0.db (.user u) d now).1.posts =
      newPost s0.db u d now :: s0.db.posts := by
    simp only [post_create]
    rw [if_pos hd]
  have hmem : newPost s0.db u d now ∈
      (read_index
        (cache_clear (create_post_app (read_index s0).1 u d now))).2 := by
    rw [read_index_cold _ rfl]
    rw [show (cache_clear (create_post_app (read_index s0).1 u d now)).db =
        (post_create s0.db (Identity.user u) d now).1 from hdb2]
    unfold index_posts orderPosts
    rw [(List.perm_insertionSort _ _).mem_iff, hposts]
    exact List.mem_cons_self _ _
  refine ⟨hr2, hmem, ?_⟩
  intro hnot heq
  rw [heq] at hmem
  exact hnot hmem

/-- C1 witness: a concrete run — cold start on the sample store, warm the
cache, create a post, observe the identical response, clear, observe the
new post. -/
theorem cache_stale_until_clear_witness :
    ((read_index (create_post_app
          (read_index ⟨sampleDB, none⟩).1 1 sampleForm 9)).2 =
        (read_index (⟨sampleDB, none⟩ : AppState)).2)
    ∧ newPost sampleDB 1 sampleForm 9 ∈
        (read_index (cache_clear (create_post_app
          (read_index ⟨sampleDB, none⟩).1 1 sampleForm 9))).2
    ∧ (read_index (cache_clear (create_post_app
          (read_index ⟨sampleDB, none⟩).1 1 sampleForm 9))).2 ≠
        (read_index (⟨sampleDB, none⟩ : AppState)).2 :=
  ⟨(cache_stale_until_clear ⟨sampleDB, none⟩ 1 sampleForm 9 (by decide)).1,
   (cache_stale_until_clear ⟨sampleDB, none⟩ 1 sampleForm 9 (by decide)).2.1,
   (cache_stale_until_clear ⟨sampleDB, none⟩ 1 sampleForm 9 (by decide)).2.2
     (by decide)⟩

end Yatube
